import Mathlib

/-!
Verification of `dulwich/credentials.py` (git credential-helper support).

The Python module is shallowly embedded below.  Byte strings are lists of
naturals, the operating-system facilities used by the module
(`shlex.split`, `shutil.which`, `git --exec-path`, `subprocess.run`) are
gathered in an `Env` structure, and the Python string/bytes primitives the
module relies on (`bytes.split`, `bytes.strip`, `bytes.splitlines`,
`str.encode("ascii")`, `os.path.join`, `os.path.isabs`) are modelled for a
POSIX platform (`sys.platform != "win32"`, `os.linesep == "\n"`).
-/

set_option autoImplicit false

namespace Credentials

/-- Python `bytes` as lists of byte values. -/
abbrev Bytes := List Nat

/-- Encoding of a string whose characters are code points (used for ASCII
literals and for `str.encode("ascii")` once the ASCII check has passed). -/
def s2b (s : String) : Bytes := s.toList.map Char.toNat

/-- The byte value of the separator character used by the line protocol. -/
def eqByte : Nat := 61

/-- The byte value of the line-feed character. -/
def lfByte : Nat := 10

/-- The platform line terminator `os.linesep` (POSIX). -/
def linesep : String := "\n"

/-- First character of a string, `s[0]` in Python (none when empty). -/
def strHead? (s : String) : Option Char := s.toList.head?

/-- Python `s[1:]` for a string: drop the first character. -/
def strTail (s : String) : String := String.mk (s.toList.drop 1)

/-- `os.path.isabs` on POSIX: the path starts with a slash. -/
def isAbs (s : String) : Bool := strHead? s == some '/'

/-- `os.path.join(a, b)` on POSIX for the two-argument case used in
`_prepare_command`. -/
def pathJoin (a b : String) : String :=
  if isAbs b then b
  else if a.toList.isEmpty || (a.toList.getLast? == some '/') then a ++ b
  else a ++ "/" ++ b

/-- Outcome of `subprocess.run(cmd, check=True, capture stdout/stderr)`:
the executable may fail to start (`FileNotFoundError`), the process may
exit non-zero (`CalledProcessError`, carrying its stderr), or it may
succeed (carrying its stdout). -/
inductive RunResult where
  | notFound
  | failed (stderr : Bytes)
  | ok (stdout : Bytes)
deriving DecidableEq

/-- Exceptions that can escape the embedded operations. -/
inductive PyError where
  | credentialNotFound (payload : Sum Bytes String)
  | unicodeEncodeError
  | indexError
  | notImplementedError
deriving DecidableEq

/-- Whether an error is the `CredentialNotFoundError` kind. -/
def isCredentialNotFound : PyError → Bool
  | PyError.credentialNotFound _ => true
  | _ => false

/-- Abstraction of the operating-system facilities `CredentialHelper`
calls out to: `shlex.split`, `shutil.which(name)` on `PATH`,
`shutil.which(name, path=dir)`, the stripped output of
`git --exec-path`, and `subprocess.run` (a shell string on the left of
the sum, an argv list on the right). -/
structure Env where
  shlexSplit : String → List String
  which : String → Bool
  whichIn : String → String → Bool
  gitExecPath : String
  run : Sum String (List String) → Bytes → RunResult

/-- `CredentialHelper._prepare_command` on a POSIX platform (the
`sys.platform == "win32"` re-derivation of `argv[0]` is not taken).
`none` models the `IndexError` Python raises on an empty command string
or an empty token list. -/
def prepareCommand (env : Env) (command : String) : Option (Sum String (List String)) :=
  match strHead? command with
  | none => none
  | some c0 =>
    if c0 = '!' then some (Sum.inl (strTail command))
    else
      match env.shlexSplit command with
      | [] => none
      | a0 :: rest =>
        if isAbs a0 then some (Sum.inr (a0 :: rest))
        else
          let executable := "git-credential-" ++ a0
          if !env.which executable && env.which "git" then
            if env.whichIn executable env.gitExecPath then
              some (Sum.inr (pathJoin env.gitExecPath executable :: rest))
            else
              some (Sum.inr (executable :: rest))
          else
            some (Sum.inr (executable :: rest))

/-- Appending the `get` verb: `cmd += " get"` for the shell form,
`cmd.append("get")` for the argv form. -/
def appendGet : Sum String (List String) → Sum String (List String)
  | Sum.inl s => Sum.inl (s ++ " get")
  | Sum.inr l => Sum.inr (l ++ ["get"])

/-- The request body `f"url={url}{os.linesep}"`. -/
def helperInputStr (url : String) : String := "url=" ++ url ++ linesep

/-- `str.encode("ascii")`: succeeds with the code points as bytes when
every character is below U+0080, otherwise raises `UnicodeEncodeError`
(modelled as `none`). -/
def asciiEncode (s : String) : Option Bytes :=
  if s.toList.all (fun c => c.toNat < 128) then some (s2b s) else none

/-- Python `bytes.split(sep)` for a one-byte separator, accumulator form. -/
def bsplitAux (sep : Nat) : Bytes → Bytes → List Bytes
  | [], acc => [acc.reverse]
  | c :: cs, acc =>
    if c = sep then acc.reverse :: bsplitAux sep cs []
    else bsplitAux sep cs (c :: acc)

/-- Python `bytes.split(sep)` for a one-byte separator
(`line.split(b"=")`). -/
def bsplit (sep : Nat) (l : Bytes) : List Bytes := bsplitAux sep l []

/-- The bytes Python treats as whitespace in `bytes.strip()`. -/
def isPySpace (c : Nat) : Bool := c == 32 || (9 ≤ c && c ≤ 13)

/-- Python `bytes.strip()`. -/
def bstrip (l : Bytes) : Bytes :=
  ((l.dropWhile isPySpace).reverse.dropWhile isPySpace).reverse

/-- Python `bytes.splitlines()`, accumulator form: lines are delimited by
LF, CR or CRLF, and data ending in a terminator yields no trailing empty
line. -/
def bsplitlinesAux : Bytes → Bytes → List Bytes
  | [], acc => if acc.isEmpty then [] else [acc.reverse]
  | 10 :: cs, acc => acc.reverse :: bsplitlinesAux cs []
  | 13 :: 10 :: cs, acc => acc.reverse :: bsplitlinesAux cs []
  | 13 :: cs, acc => acc.reverse :: bsplitlinesAux cs []
  | c :: cs, acc => bsplitlinesAux cs (c :: acc)

/-- Python `bytes.splitlines()`. -/
def bsplitlines (l : Bytes) : List Bytes := bsplitlinesAux l []

/-- Parsing one line of helper stdout: `key, value = line.split(b"=")`
succeeds exactly when the split produces two fields, i.e. when the line
holds exactly one `=`; otherwise the `ValueError` is caught and the
line is skipped. -/
def parseLine (line : Bytes) : Option (Bytes × Bytes) :=
  match bsplit eqByte line with
  | [k, v] => some (k, v)
  | _ => none

/-- Python dict assignment `d[k] = v` on an insertion-ordered
association list: an existing key keeps its position and gets the new
value, a new key is appended. -/
def dictSet (d : List (Bytes × Bytes)) (k v : Bytes) : List (Bytes × Bytes) :=
  if d.any (fun p => p.1 == k) then
    d.map (fun p => if p.1 == k then (k, v) else p)
  else
    d ++ [(k, v)]

/-- Python dict lookup `d[k]` (as an option). -/
def dictGet (d : List (Bytes × Bytes)) (k : Bytes) : Option Bytes :=
  (d.find? (fun p => p.1 == k)).map Prod.snd

/-- Python `k in d`. -/
def dictHas (d : List (Bytes × Bytes)) (k : Bytes) : Bool :=
  d.any (fun p => p.1 == k)

/-- One iteration of the stdout-parsing loop in `get`: a line with
exactly one `=` updates the dictionary, any other line raises
`ValueError` which is caught and skipped (`continue`). -/
def parseStep (d : List (Bytes × Bytes)) (line : Bytes) : List (Bytes × Bytes) :=
  match parseLine line with
  | some (k, v) => dictSet d k v
  | none => d

/-- The credential mapping accumulated from
`res.stdout.strip().splitlines()`. -/
def parseCreds (stdout : Bytes) : List (Bytes × Bytes) :=
  (bsplitlines (bstrip stdout)).foldl parseStep []

/-- The required key `b"username"`. -/
def usernameKey : Bytes := s2b "username"

/-- The required key `b"password"`. -/
def passwordKey : Bytes := s2b "password"

/-- The acceptance check
`all((credentials, b"username" in credentials, b"password" in credentials))`. -/
def credsAccepted (d : List (Bytes × Bytes)) : Bool :=
  !d.isEmpty && dictHas d usernameKey && dictHas d passwordKey

/-- `CredentialHelper.get(url)` for a helper built from `command`. -/
def get (env : Env) (command url : String) : Except PyError (List (Bytes × Bytes)) :=
  match prepareCommand env command with
  | none => Except.error PyError.indexError
  | some cmd =>
    match asciiEncode (helperInputStr url) with
    | none => Except.error PyError.unicodeEncodeError
    | some input =>
      match env.run (appendGet cmd) input with
      | RunResult.notFound =>
        Except.error (PyError.credentialNotFound (Sum.inr "Helper not found"))
      | RunResult.failed stderr =>
        Except.error (PyError.credentialNotFound (Sum.inl stderr))
      | RunResult.ok stdout =>
        if credsAccepted (parseCreds stdout) then Except.ok (parseCreds stdout)
        else
          Except.error
            (PyError.credentialNotFound (Sum.inr "Could not get credentials from helper"))

/-- `CredentialHelper.store`: unconditionally raises
`NotImplementedError`, whatever the arguments. -/
def store (_args : List String) : Except PyError Unit :=
  Except.error PyError.notImplementedError

/-- `CredentialHelper.erase`: unconditionally raises
`NotImplementedError`, whatever the arguments. -/
def erase (_args : List String) : Except PyError Unit :=
  Except.error PyError.notImplementedError

/-! Concrete environments used to exercise the model on closed inputs. -/

/-- An environment where every lookup succeeds and the helper prints
empty `username` and `password` values. -/
def envEmptyValues : Env where
  shlexSplit := fun s => [s]
  which := fun _ => true
  whichIn := fun _ _ => true
  gitExecPath := "/usr/lib/git-core"
  run := fun _ _ => RunResult.ok (s2b "username=\npassword=\n")

/-- An environment whose helper process exits non-zero with stderr
`boom`. -/
def envFailed : Env where
  shlexSplit := fun s => [s]
  which := fun _ => true
  whichIn := fun _ _ => true
  gitExecPath := "/usr/lib/git-core"
  run := fun _ _ => RunResult.failed (s2b "boom")

/-- An environment where the helper executable cannot be started. -/
def envNotFound : Env where
  shlexSplit := fun s => [s]
  which := fun _ => false
  whichIn := fun _ _ => false
  gitExecPath := "/usr/lib/git-core"
  run := fun _ _ => RunResult.notFound

/-- An environment whose helper prints only a `username` line. -/
def envMissingPassword : Env where
  shlexSplit := fun s => [s]
  which := fun _ => true
  whichIn := fun _ _ => true
  gitExecPath := "/usr/lib/git-core"
  run := fun _ _ => RunResult.ok (s2b "username=u\n")

/-- An environment where only `git` is on the search path and helpers
are found in its exec-path directory. -/
def envExecPath : Env where
  shlexSplit := fun _ => ["foo", "--bar"]
  which := fun s => s == "git"
  whichIn := fun _ _ => true
  gitExecPath := "/usr/lib/git-core"
  run := fun _ _ => RunResult.notFound

/-! Helper lemmas. -/

theorem s2b_append (a b : String) : s2b (a ++ b) = s2b a ++ s2b b := by
  simp [s2b]

theorem bsplitAux_no_sep (sep : Nat) (l acc : Bytes) (h : sep ∉ l) :
    bsplitAux sep l acc = [acc.reverse ++ l] := by
  induction l generalizing acc with
  | nil => simp [bsplitAux]
  | cons c cs ih =>
    have hc : ¬ c = sep := fun e => h (by simp [e])
    have hcs : sep ∉ cs := fun m => h (List.mem_cons_of_mem _ m)
    simp [bsplitAux, hc, ih (c :: acc) hcs]

theorem bsplitAux_sep (sep : Nat) (k v acc : Bytes) (hk : sep ∉ k) :
    bsplitAux sep (k ++ sep :: v) acc = (acc.reverse ++ k) :: bsplitAux sep v [] := by
  induction k generalizing acc with
  | nil => simp [bsplitAux]
  | cons c cs ih =>
    have hc : ¬ c = sep := fun e => hk (by simp [e])
    have hcs : sep ∉ cs := fun m => hk (List.mem_cons_of_mem _ m)
    simp [bsplitAux, hc, ih (c :: acc) hcs]

theorem bsplit_single (sep : Nat) (k v : Bytes) (hk : sep ∉ k) (hv : sep ∉ v) :
    bsplit sep (k ++ sep :: v) = [k, v] := by
  unfold bsplit
  rw [bsplitAux_sep sep k v [] hk]
  simp [bsplitAux_no_sep sep v [] hv]

theorem length_bsplitAux (sep : Nat) (l acc : Bytes) :
    (bsplitAux sep l acc).length = l.count sep + 1 := by
  induction l generalizing acc with
  | nil => simp [bsplitAux]
  | cons c cs ih =>
    by_cases hc : c = sep
    · subst hc
      simp [bsplitAux, ih, List.count_cons]
    · simp [bsplitAux, hc, ih, List.count_cons]

theorem parseLine_single (k v : Bytes) (hk : eqByte ∉ k) (hv : eqByte ∉ v) :
    parseLine (k ++ eqByte :: v) = some (k, v) := by
  unfold parseLine
  rw [bsplit_single eqByte k v hk hv]

theorem parseLine_none_of_count (line : Bytes) (h : line.count eqByte ≠ 1) :
    parseLine line = none := by
  have hl := length_bsplitAux eqByte line []
  unfold parseLine bsplit
  rcases hb : bsplitAux eqByte line [] with _ | ⟨a, _ | ⟨b, _ | ⟨c, tl⟩⟩⟩
  · rfl
  · rfl
  · rw [hb] at hl
    simp at hl
    omega
  · rfl

theorem find?_setMap (k v : Bytes) (ds : List (Bytes × Bytes))
    (h : ds.any (fun q => q.1 == k) = true) :
    (ds.map fun p => if p.1 == k then (k, v) else p).find? (fun q => q.1 == k)
      = some (k, v) := by
  induction ds with
  | nil => simp at h
  | cons p ds ih =>
    by_cases hpk : p.1 = k
    · have hm : ((p :: ds).map fun p => if p.1 == k then (k, v) else p)
          = (k, v) :: (ds.map fun p => if p.1 == k then (k, v) else p) := by
        simp [hpk]
      rw [hm]
      exact List.find?_cons_of_pos _ (by simp)
    · have hne : (p.1 == k) = false := by simp [hpk]
      simp only [List.any_cons, hne, Bool.false_or] at h
      have hm : ((p :: ds).map fun p => if p.1 == k then (k, v) else p)
          = p :: (ds.map fun p => if p.1 == k then (k, v) else p) := by
        simp [hne]
        exact fun e => absurd e hpk
      rw [hm, List.find?_cons_of_neg _ (by simp [hne])]
      exact ih h

theorem find?_appendSingleton (k v : Bytes) (ds : List (Bytes × Bytes))
    (h : ds.any (fun q => q.1 == k) = false) :
    (ds ++ [(k, v)]).find? (fun q => q.1 == k) = some (k, v) := by
  induction ds with
  | nil => simp [List.find?]
  | cons p ds ih =>
    simp only [List.any_cons, Bool.or_eq_false_iff] at h
    simp [List.find?, h.1, ih h.2]

theorem dictGet_dictSet (d : List (Bytes × Bytes)) (k v : Bytes) :
    dictGet (dictSet d k v) k = some v := by
  by_cases h : d.any (fun q => q.1 == k) = true
  · unfold dictSet
    rw [if_pos h]
    unfold dictGet
    rw [find?_setMap k v d h]
    rfl
  · have hf : d.any (fun q => q.1 == k) = false := by
      cases hany : d.any (fun q => q.1 == k)
      · rfl
      · exact absurd hany h
    unfold dictSet
    rw [if_neg h]
    unfold dictGet
    rw [find?_appendSingleton k v d hf]
    rfl

theorem get_run_cases (env : Env) (command url : String)
    (cmd : Sum String (List String)) (input : Bytes)
    (hp : prepareCommand env command = some cmd)
    (hi : asciiEncode (helperInputStr url) = some input) :
    get env command url =
      match env.run (appendGet cmd) input with
      | RunResult.notFound =>
        Except.error (PyError.credentialNotFound (Sum.inr "Helper not found"))
      | RunResult.failed stderr =>
        Except.error (PyError.credentialNotFound (Sum.inl stderr))
      | RunResult.ok stdout =>
        if credsAccepted (parseCreds stdout) then Except.ok (parseCreds stdout)
        else
          Except.error
            (PyError.credentialNotFound (Sum.inr "Could not get credentials from helper")) := by
  unfold get
  rw [hp, hi]

theorem credsAccepted_spec (d : List (Bytes × Bytes)) (h : credsAccepted d = true) :
    d.isEmpty = false ∧ dictHas d usernameKey = true ∧ dictHas d passwordKey = true := by
  simp only [credsAccepted, Bool.and_eq_true, Bool.not_eq_true'] at h
  exact ⟨h.1.1, h.1.2, h.2⟩

theorem get_ok_accepted (env : Env) (command url : String) (m : List (Bytes × Bytes))
    (h : get env command url = Except.ok m) : credsAccepted m = true := by
  unfold get at h
  split at h
  · exact Except.noConfusion h
  · split at h
    · exact Except.noConfusion h
    · split at h
      · exact Except.noConfusion h
      · exact Except.noConfusion h
      · split at h
        · rename_i hacc
          simp only [Except.ok.injEq] at h
          subst h
          exact hacc
        · exact Except.noConfusion h

/-! Claims. -/

/-- C1 (amended): a credential mapping is returned by `get` only if it is
non-empty and contains both the `username` and `password` keys; every
failure of the launched helper (executable not startable, non-zero exit
status, or a successful run whose parsed output fails the acceptance
check) makes `get` fail with `CredentialNotFoundError`, while an
ASCII-encoding failure for a non-ASCII url propagates as
`UnicodeEncodeError` instead of `CredentialNotFoundError`. -/
theorem c1_invariant_amended (env : Env) (command url : String) :
    (∀ m, get env command url = Except.ok m →
        m.isEmpty = false ∧ dictHas m usernameKey = true ∧ dictHas m passwordKey = true)
    ∧ (∀ cmd input stdout, prepareCommand env command = some cmd →
        asciiEncode (helperInputStr url) = some input →
        env.run (appendGet cmd) input = RunResult.ok stdout →
        credsAccepted (parseCreds stdout) = false →
        get env command url
          = Except.error
              (PyError.credentialNotFound (Sum.inr "Could not get credentials from helper")))
    ∧ (∀ cmd input, prepareCommand env command = some cmd →
        asciiEncode (helperInputStr url) = some input →
        env.run (appendGet cmd) input = RunResult.notFound →
        get env command url
          = Except.error (PyError.credentialNotFound (Sum.inr "Helper not found")))
    ∧ (∀ cmd input stderr, prepareCommand env command = some cmd →
        asciiEncode (helperInputStr url) = some input →
        env.run (appendGet cmd) input = RunResult.failed stderr →
        get env command url = Except.error (PyError.credentialNotFound (Sum.inl stderr)))
    ∧ (∀ cmd, prepareCommand env command = some cmd →
        asciiEncode (helperInputStr url) = none →
        get env command url = Except.error PyError.unicodeEncodeError) := by
  refine ⟨?_, ?_, ?_, ?_, ?_⟩
  · intro m hm
    exact credsAccepted_spec m (get_ok_accepted env command url m hm)
  · intro cmd input stdout hp hi hr hacc
    rw [get_run_cases env command url cmd input hp hi, hr]
    simp [hacc]
  · intro cmd input hp hi hr
    rw [get_run_cases env command url cmd input hp hi, hr]
  · intro cmd input stderr hp hi hr
    rw [get_run_cases env command url cmd input hp hi, hr]
  · intro cmd hp hi
    unfold get
    rw [hp, hi]

/-- C1 counterexample: for a non-ASCII url the encoding failure
propagates as `UnicodeEncodeError`, so not every non-returning outcome
of `get` is a `CredentialNotFoundError` as the claim states. -/
theorem c1_unicode_counterexample :
    get envEmptyValues "foo" "https://exämple.com"
      = Except.error PyError.unicodeEncodeError := by
  rfl

/-- Witness for C1 (amended): a helper that exits successfully but
prints only a username line makes `get` fail with
`CredentialNotFoundError`. -/
theorem c1_invariant_amended_witness :
    get envMissingPassword "foo" "https://example.com"
      = Except.error
          (PyError.credentialNotFound (Sum.inr "Could not get credentials from helper")) :=
  (c1_invariant_amended envMissingPassword "foo" "https://example.com").2.1
    (Sum.inr ["git-credential-foo"]) (s2b "url=https://example.com\n") (s2b "username=u\n")
    (by decide) (by decide) rfl (by decide)

/-- C2: for a command specification not starting with `!` whose first
shell-split token is not an absolute path, the resolver computes the
executable `git-credential-` + `argv[0]`; when that executable is found
on the search path it is used as is, when it is absent and `git` is
present the git exec-path directory is probed and a hit rewrites the
executable to the absolute path inside that directory; the descriptor
is the executable followed by the remaining tokens unchanged. -/
theorem c2_short_name_resolution (env : Env) (cmd a0 : String) (rest : List String)
    (hne : cmd.toList ≠ []) (hnb : strHead? cmd ≠ some '!')
    (hsplit : env.shlexSplit cmd = a0 :: rest) (habs : isAbs a0 = false) :
    (env.which ("git-credential-" ++ a0) = true →
        prepareCommand env cmd = some (Sum.inr (("git-credential-" ++ a0) :: rest)))
    ∧ (env.which ("git-credential-" ++ a0) = false → env.which "git" = true →
        env.whichIn ("git-credential-" ++ a0) env.gitExecPath = true →
        prepareCommand env cmd
          = some (Sum.inr (pathJoin env.gitExecPath ("git-credential-" ++ a0) :: rest)))
    ∧ (env.which ("git-credential-" ++ a0) = false → env.which "git" = true →
        env.whichIn ("git-credential-" ++ a0) env.gitExecPath = false →
        prepareCommand env cmd = some (Sum.inr (("git-credential-" ++ a0) :: rest))) := by
  rcases hh : strHead? cmd with _ | c
  · exact absurd (by simpa [strHead?] using hh) hne
  · have hc : ¬ c = '!' := fun e => hnb (by rw [hh, e])
    refine ⟨fun hw => ?_, fun hw hg hin => ?_, fun hw hg hin => ?_⟩
    · simp [prepareCommand, hh, hc, hsplit, habs, hw]
    · simp [prepareCommand, hh, hc, hsplit, habs, hw, hg, hin]
    · simp [prepareCommand, hh, hc, hsplit, habs, hw, hg, hin]

/-- Witness for C2: the short name `foo` absent from the search path is
found in the git exec-path directory and resolves to the absolute path
in that directory, with the remaining token preserved. -/
theorem c2_short_name_resolution_witness :
    prepareCommand envExecPath "foo --bar"
      = some (Sum.inr ["/usr/lib/git-core/git-credential-foo", "--bar"]) := by
  have h := (c2_short_name_resolution envExecPath "foo --bar" "foo" ["--bar"]
    (by decide) (by decide) rfl (by decide)).2.1 (by decide) (by decide) (by decide)
  rw [h]
  decide

/-- C3 (amended): a helper stdout line is split into a key/value pair
exactly when it contains exactly one `=` (the text before it is the
key, the text after it the value); a line whose `=`-count differs from
one, in particular one with a second `=`, is skipped. -/
theorem c3_exactly_one_eq (line k v : Bytes) (hk : eqByte ∉ k) (hv : eqByte ∉ v)
    (hcnt : line.count eqByte ≠ 1) :
    parseLine (k ++ eqByte :: v) = some (k, v) ∧ parseLine line = none :=
  ⟨parseLine_single k v hk hv, parseLine_none_of_count line hcnt⟩

/-- C3 counterexample: the line `a=b=c` contains an `=` yet yields no
pair at all: unpacking `line.split(b"=")` raises `ValueError` for more
than one `=` and the line is skipped, instead of binding key `a` to
value `b=c` as the claim states. -/
theorem c3_first_eq_counterexample :
    parseLine (s2b "a=b=c") = none ∧ parseCreds (s2b "a=b=c") = [] := by
  decide

/-- Witness for C3 (amended): a one-`=` line parses, a zero-`=` line is
skipped. -/
theorem c3_exactly_one_eq_witness :
    parseLine (s2b "user" ++ eqByte :: s2b "pw") = some (s2b "user", s2b "pw")
    ∧ parseLine (s2b "chatter") = none :=
  c3_exactly_one_eq (s2b "chatter") (s2b "user") (s2b "pw")
    (by decide) (by decide) (by decide)

/-- C4: a command specification beginning with `!` resolves to the shell
form holding exactly the remaining substring, character for character,
with no tokenization. -/
theorem c4_shell_literal_verbatim (env : Env) (cmd : String)
    (h : strHead? cmd = some '!') :
    prepareCommand env cmd = some (Sum.inl (strTail cmd))
    ∧ (strTail cmd).toList = cmd.toList.drop 1 := by
  constructor
  · simp [prepareCommand, h]
  · rfl

/-- Witness for C4: the remainder after `!` is returned unchanged. -/
theorem c4_shell_literal_verbatim_witness :
    prepareCommand envEmptyValues "!echo hi" = some (Sum.inl "echo hi") := by
  have h := (c4_shell_literal_verbatim envEmptyValues "!echo hi" (by decide)).1
  rw [h]
  decide

/-- C5: when the helper process runs and exits with a non-zero status,
`get` fails with `CredentialNotFoundError` carrying the process
standard-error content. -/
theorem c5_nonzero_exit_stderr (env : Env) (command url : String)
    (cmd : Sum String (List String)) (input stderr : Bytes)
    (hp : prepareCommand env command = some cmd)
    (hi : asciiEncode (helperInputStr url) = some input)
    (hr : env.run (appendGet cmd) input = RunResult.failed stderr) :
    get env command url = Except.error (PyError.credentialNotFound (Sum.inl stderr)) := by
  rw [get_run_cases env command url cmd input hp hi, hr]

/-- Witness for C5: stderr `boom` is carried in the failure. -/
theorem c5_nonzero_exit_stderr_witness :
    get envFailed "store" "https://example.com"
      = Except.error (PyError.credentialNotFound (Sum.inl (s2b "boom"))) :=
  c5_nonzero_exit_stderr envFailed "store" "https://example.com"
    (Sum.inr ["git-credential-store"]) (s2b "url=https://example.com\n") (s2b "boom")
    (by decide) (by decide) rfl

/-- C6: when the helper executable cannot be located or started, `get`
fails with `CredentialNotFoundError` indicating the helper was not
found. -/
theorem c6_helper_not_found (env : Env) (command url : String)
    (cmd : Sum String (List String)) (input : Bytes)
    (hp : prepareCommand env command = some cmd)
    (hi : asciiEncode (helperInputStr url) = some input)
    (hr : env.run (appendGet cmd) input = RunResult.notFound) :
    get env command url
      = Except.error (PyError.credentialNotFound (Sum.inr "Helper not found")) := by
  rw [get_run_cases env command url cmd input hp hi, hr]

/-- Witness for C6. -/
theorem c6_helper_not_found_witness :
    get envNotFound "foo" "https://example.org"
      = Except.error (PyError.credentialNotFound (Sum.inr "Helper not found")) :=
  c6_helper_not_found envNotFound "foo" "https://example.org"
    (Sum.inr ["git-credential-foo"]) (s2b "url=https://example.org\n")
    (by decide) (by decide) rfl

/-- C7: `store` and `erase` always fail with `NotImplementedError`,
whatever their arguments; the signal is distinct from
`CredentialNotFoundError` and neither operation ever succeeds. -/
theorem c7_store_erase_not_implemented :
    (∀ args, store args = Except.error PyError.notImplementedError)
    ∧ (∀ args, erase args = Except.error PyError.notImplementedError)
    ∧ isCredentialNotFound PyError.notImplementedError = false :=
  ⟨fun _ => rfl, fun _ => rfl, rfl⟩

/-- C8: a stdout line without an `=` is skipped and parsing of the
remaining lines continues unchanged, and assigning a duplicate key
keeps the value of the last occurrence in the mapping. -/
theorem c8_skip_and_last_wins (d : List (Bytes × Bytes)) (line : Bytes)
    (rest : List Bytes) (k v : Bytes) (hbad : eqByte ∉ line) :
    List.foldl parseStep d (line :: rest) = List.foldl parseStep d rest
    ∧ dictGet (dictSet d k v) k = some v := by
  constructor
  · have hnone : parseLine line = none := by
      apply parseLine_none_of_count
      rw [List.count_eq_zero_of_not_mem hbad]
      decide
    simp [parseStep, hnone]
  · exact dictGet_dictSet d k v

/-- Witness for C8: diagnostic chatter is skipped, a later
`username` assignment overrides an earlier one. -/
theorem c8_skip_and_last_wins_witness :
    List.foldl parseStep [(s2b "username", s2b "a")] [s2b "chatter", s2b "password=p"]
      = List.foldl parseStep [(s2b "username", s2b "a")] [s2b "password=p"]
    ∧ dictGet (dictSet [(s2b "username", s2b "a")] (s2b "username") (s2b "b")) (s2b "username")
      = some (s2b "b") :=
  c8_skip_and_last_wins [(s2b "username", s2b "a")] (s2b "chatter") [s2b "password=p"]
    (s2b "username") (s2b "b") (by decide)

/-- C9: the helper request body is exactly the single line `url=` + url
followed by the platform line terminator, encoded as ASCII; a url with
a non-ASCII character makes `get` propagate the encoding failure as
`UnicodeEncodeError` rather than converting it. -/
theorem c9_request_encoding (env : Env) (command url : String)
    (cmd : Sum String (List String)) (hp : prepareCommand env command = some cmd) :
    (url.toList.all (fun c => c.toNat < 128) = true →
        asciiEncode (helperInputStr url) = some (s2b ("url=" ++ url) ++ [lfByte]))
    ∧ (url.toList.all (fun c => c.toNat < 128) = false →
        get env command url = Except.error PyError.unicodeEncodeError) := by
  have htl : (helperInputStr url).toList
      = "url=".toList ++ url.toList ++ linesep.toList := rfl
  constructor
  · intro hall
    have hcond : (helperInputStr url).toList.all (fun c => c.toNat < 128) = true := by
      rw [htl]
      simp only [List.all_append, Bool.and_eq_true]
      exact ⟨⟨by decide, hall⟩, by decide⟩
    unfold asciiEncode
    rw [if_pos hcond]
    have hs : s2b (helperInputStr url) = s2b ("url=" ++ url) ++ [lfByte] := by
      unfold helperInputStr
      rw [s2b_append]
      congr 1
    rw [hs]
  · intro hfail
    have hcond : (helperInputStr url).toList.all (fun c => c.toNat < 128) = false := by
      rw [htl, List.all_append, List.all_append, hfail]
      simp
    have hnone : asciiEncode (helperInputStr url) = none := by
      unfold asciiEncode
      rw [if_neg (fun h => absurd (hcond.symm.trans h) Bool.false_ne_true)]
    unfold get
    rw [hp, hnone]

/-- Witness for C9: the exact request body for an ASCII url, and the
propagated encoding error for a non-ASCII url. -/
theorem c9_request_encoding_witness :
    asciiEncode (helperInputStr "https://example.com")
      = some (s2b "url=https://example.com" ++ [lfByte])
    ∧ get envFailed "cache" "https://exö.com" = Except.error PyError.unicodeEncodeError := by
  constructor
  · have h := (c9_request_encoding envFailed "cache" "https://example.com"
      (Sum.inr ["git-credential-cache"]) (by decide)).1 (by decide)
    rw [h]
    decide
  · exact (c9_request_encoding envFailed "cache" "https://exö.com"
      (Sum.inr ["git-credential-cache"]) (by decide)).2 (by decide)

/-- C10: a stdout line `key=` parses to an empty byte-string value, so a
helper printing `username=` and `password=` lines passes the acceptance
check and `get` returns a mapping whose values are empty byte strings
instead of failing. -/
theorem c10_empty_values :
    parseLine (s2b "username=") = some (s2b "username", [])
    ∧ get envEmptyValues "foo" "https://example.com"
      = Except.ok [(usernameKey, []), (passwordKey, [])] := by
  constructor
  · decide
  · rfl

end Credentials
